import Mathlib

set_option maxHeartbeats 1000000
set_option maxRecDepth 8000

/-!
Verification development for the concurrent synchronization pipeline
(`refactored_v2_async`).  Python strings are modelled as `List Char`
(sequences of code points), Python heterogeneous values as the inductive
`PyVal`, fallible code as `Option`/`Except`.  I/O effects (database fetches,
HTTP calls, sleeps, logging) are modelled by passing their results as
arguments; all definitions are translated from the repository's source files,
as indicated per definition.
-/

/-- Python `str` modelled as a list of code points. -/
abbrev Str := List Char

namespace Py

/-- Models Python `str.upper()` per character, for the character classes used
by this code base (ASCII letters and the basic Cyrillic block а..я plus ё).
Other characters are left unchanged. -/
def pyToUpperChar (c : Char) : Char :=
  let n := c.toNat
  if 97 ≤ n ∧ n ≤ 122 then Char.ofNat (n - 32)
  else if 1072 ≤ n ∧ n ≤ 1103 then Char.ofNat (n - 32)
  else if n = 1105 then Char.ofNat 1025
  else c

/-- Models Python `needle in haystack` on strings: `containsSub s p = true`
iff `p` occurs as a contiguous substring of `s`. -/
def containsSub (s p : Str) : Bool :=
  match s with
  | [] => p.isEmpty
  | _ :: t => p.isPrefixOf s || containsSub t p

/-- Models the character class of `\d` restricted to ASCII digits
(the data processed by the pipeline only carries ASCII digits). -/
def isDigitChar (c : Char) : Bool := c.isDigit

/-- Models the character class of `\s` restricted to ASCII whitespace. -/
def isSpaceChar (c : Char) : Bool :=
  c = ' ' || c = '\t' || c = '\n' || c = '\r' || c = '\x0b' || c = '\x0c'

/-- Python slicing `l[:i]` for an `Int` bound (negative bounds count from the
end, clamped at zero). -/
def pySliceTo (l : List α) (i : Int) : List α :=
  if 0 ≤ i then l.take i.toNat else l.take (l.length - (-i).toNat)

/-- Python indexing `l[i]` for an `Int` index; `none` models `IndexError`. -/
def pyGet (l : List α) (i : Int) : Option α :=
  if 0 ≤ i then l.get? i.toNat
  else if (-i).toNat ≤ l.length then l.get? (l.length - (-i).toNat)
  else none

end Py

namespace Helpers

open Py

/-- From `utils/helpers.py`, `get_column_letter` (lines 23-29): bijective
base-26 spreadsheet column letters, built by repeated `divmod(n - 1, 26)`. -/
def get_column_letter (n : Nat) : Str :=
  if _h : n = 0 then []
  else get_column_letter ((n - 1) / 26) ++ [Char.ofNat (65 + (n - 1) % 26)]
decreasing_by
  exact Nat.lt_of_le_of_lt (Nat.div_le_self _ _) (by omega)

/-- Python `str.split(sep)` for a single-character separator. -/
def pySplit (sep : Char) : Str → List Str
  | [] => [[]]
  | c :: t =>
    let rest := pySplit sep t
    if c = sep then [] :: rest
    else match rest with
      | [] => [[c]]
      | piece :: more => (c :: piece) :: more

/-- From `utils/helpers.py`, `get_column_range_end` (lines 32-33):
`range_str.split(':')[1] if ':' in range_str else range_str`.  When `':'`
occurs the split has at least two pieces, so the `[1]` access cannot fail;
`getD` with a default is therefore faithful. -/
def get_column_range_end (range_str : Str) : Str :=
  if containsSub range_str [':'] then (pySplit ':' range_str).getD 1 []
  else range_str

/-- From `utils/helpers.py`, `get_column_index` (lines 36-41): fold
`index * 26 + (ord(char) - ord('A') + 1)` over the upper-cased letters. -/
def get_column_index (col_letter : Str) : Int :=
  (col_letter.map pyToUpperChar).foldl
    (fun index c => index * 26 + ((c.toNat : Int) - 65 + 1)) 0

/-- Python `date_str.replace('Z', '+00:00')`. -/
def replace_z : Str → Str
  | [] => []
  | c :: t => (if c = 'Z' then '+' :: '0' :: '0' :: ':' :: '0' :: '0' :: [] else [c]) ++ replace_z t

/-- Helper for `iso_normalize`: accepts the empty suffix and the
offset/fraction suffixes this pipeline can produce. -/
def suffix_ok : Str → Bool
  | [] => true
  | '+' :: _ => true
  | '.' :: _ => true
  | _ => false

/-- Models `datetime.fromisoformat` followed by
`strftime('%Y-%m-%d %H:%M:%S')`, restricted to the date-time shapes this
pipeline produces (`YYYY-MM-DD[ T]HH:MM:SS` with an optional offset or
fraction suffix).  Calendar range validation is not modelled; no claim in
this development depends on this function's value. -/
def iso_normalize (s : Str) : Option Str :=
  match s with
  | y1 :: y2 :: y3 :: y4 :: '-' :: m1 :: m2 :: '-' :: d1 :: d2 :: sep ::
      h1 :: h2 :: ':' :: n1 :: n2 :: ':' :: s1 :: s2 :: rest =>
    if ([y1, y2, y3, y4, m1, m2, d1, d2, h1, h2, n1, n2, s1, s2].all isDigitChar
        && (sep = ' ' || sep = 'T') && suffix_ok rest) then
      some [y1, y2, y3, y4, '-', m1, m2, '-', d1, d2, ' ',
            h1, h2, ':', n1, n2, ':', s1, s2]
    else none
  | _ => none

/-- From `utils/helpers.py`, `parse_to_gs_date` (lines 44-53): empty input
gives the empty string; otherwise try ISO parsing (after replacing `Z`) and
reformat, returning the input unchanged on `ValueError`. -/
def parse_to_gs_date (date_str : Str) : Str :=
  if date_str.isEmpty then []
  else match iso_normalize (replace_z date_str) with
    | some out => out
    | none => date_str

end Helpers

namespace Retry

/-- From `decorators/retry.py`, `async_retry` (lines 11-52): the wrapper's
`while attempt < max_attempts` loop.  `op i` is the result of the i-th
invocation (0-based) of the wrapped operation; `retryable` models membership
in the caller-configured `exceptions` tuple.  The returned pair is
(outcome, number of invocations); outcome `.ok none` models the
`return None` after the loop, `.error e` models a propagated exception.
Backoff delays, jitter, the `on_retry` callback and logging are I/O effects
with no influence on the returned value or the invocation count. -/
def retry_loop (max_attempts : Nat) (retryable : E → Bool)
    (op : Nat → Except E A) (attempt calls : Nat) : Except E (Option A) × Nat :=
  if attempt < max_attempts then
    match op calls with
    | .ok a => (.ok (some a), calls + 1)
    | .error e =>
      if retryable e then
        if max_attempts ≤ attempt + 1 then (.error e, calls + 1)
        else retry_loop max_attempts retryable op (attempt + 1) (calls + 1)
      else (.error e, calls + 1)
  else (.ok none, calls)
termination_by max_attempts - attempt

/-- The decorated call: the loop entered with `attempt = 0` and no
invocations performed yet. -/
def async_retry (max_attempts : Nat) (retryable : E → Bool)
    (op : Nat → Except E A) : Except E (Option A) × Nat :=
  retry_loop max_attempts retryable op 0 0

end Retry

namespace Py

/-- Python heterogeneous scalar/container values as they occur in this
pipeline: `none` models both `None` and an absent optional value, `dt s`
models a `datetime` object whose `strftime('%Y-%m-%d %H:%M:%S')` rendering
is `s`. -/
inductive PyVal where
  | none : PyVal
  | int : Int → PyVal
  | str : Str → PyVal
  | dt : Str → PyVal
  | list : List PyVal → PyVal
  | dict : List (Str × PyVal) → PyVal

/-- Python truthiness for `PyVal`. -/
def pyTruthy : PyVal → Bool
  | .none => false
  | .int n => n ≠ 0
  | .str s => ¬ s.isEmpty
  | .dt _ => true
  | .list xs => ¬ xs.isEmpty
  | .dict kvs => ¬ kvs.isEmpty

mutual

/-- Python `repr` for the value shapes above (string escaping inside `repr`
of strings is not modelled; the pipeline only ever applies `str` to plain
strings). -/
def pyRepr : PyVal → Str
  | .none => ('N' :: 'o' :: 'n' :: 'e' :: [])
  | .int n => (toString n).toList
  | .str s => Char.ofNat 39 :: s ++ [Char.ofNat 39]
  | .dt s => s
  | .list xs => '[' :: pyReprList xs ++ [']']
  | .dict kvs => '<' :: pyReprDict kvs ++ ['>']

/-- `repr` of the elements of a list, comma separated. -/
def pyReprList : List PyVal → Str
  | [] => []
  | [x] => pyRepr x
  | x :: y :: t => pyRepr x ++ (',' :: ' ' :: []) ++ pyReprList (y :: t)

/-- `repr` of the items of a dict, comma separated. -/
def pyReprDict : List (Str × PyVal) → Str
  | [] => []
  | [(k, v)] => Char.ofNat 39 :: k ++ [Char.ofNat 39, ':', ' '] ++ pyRepr v
  | (k, v) :: y :: t =>
    Char.ofNat 39 :: k ++ [Char.ofNat 39, ':', ' '] ++ pyRepr v
      ++ (',' :: ' ' :: []) ++ pyReprDict (y :: t)

end

/-- Python `str(v)`: identity on strings, `repr`-style on containers. -/
def pyStr : PyVal → Str
  | .str s => s
  | .none => ('N' :: 'o' :: 'n' :: 'e' :: [])
  | .int n => (toString n).toList
  | .dt s => s
  | v => pyRepr v

/-- Python `int(v)` for the value shapes this pipeline converts; `none`
models the `TypeError`/`ValueError` raised on inconvertible values.
Whitespace stripping inside `int(str)` is not modelled. -/
def pyIntOf : PyVal → Option Int
  | .int n => some n
  | .str s =>
    match s with
    | '-' :: ds => if ¬ ds.isEmpty && ds.all isDigitChar
                   then some (-(ds.foldl (fun a c => a * 10 + (c.toNat - 48 : Int)) 0))
                   else Option.none
    | '+' :: ds => if ¬ ds.isEmpty && ds.all isDigitChar
                   then some (ds.foldl (fun a c => a * 10 + (c.toNat - 48 : Int)) 0)
                   else Option.none
    | ds => if ¬ ds.isEmpty && ds.all isDigitChar
            then some (ds.foldl (fun a c => a * 10 + (c.toNat - 48 : Int)) 0)
            else Option.none
  | _ => Option.none

/-- Python `d.get(key, default)` on a `PyVal` that should be a dict; `none`
models the `AttributeError` raised when `v` is not a dict. -/
def pyDictGet (v : PyVal) (k : Str) (dflt : PyVal) : Option PyVal :=
  match v with
  | .dict kvs => some (((kvs.find? (fun kv => kv.1 == k)).map (·.2)).getD dflt)
  | _ => Option.none

end Py

namespace CourseParser

open Py

/-- From `parsers/course_parser.py`, `COURSE_PATTERNS` (lines 14-22), in dict
insertion order. -/
def course_patterns : List (Str × Str) :=
  [ (['M', 'T', 'T'], ['M', 'T', 'T'])
  , (['М', 'Т', 'Т'], ['M', 'T', 'T'])
  , (['S', 'P', 'I', 'N'], ['S', 'P', 'I', 'N'])
  , (['С', 'П', 'И', 'Н'], ['S', 'P', 'I', 'N'])
  , (['C', 'A', 'S', 'H'], ['C', 'A', 'S', 'H'])
  , (['К', 'Э', 'Ш'], ['C', 'A', 'S', 'H'])
  , (['К', 'Е', 'Ш'], ['C', 'A', 'S', 'H'])
  ]

/-- From `parsers/course_parser.py`, `TEXT_NUMBERS` (lines 24-29), in dict
insertion order. -/
def text_numbers : List (Str × Char) :=
  [ (['П', 'Е', 'Р', 'В', 'Ы', 'Й'], '1'), (['F', 'I', 'R', 'S', 'T'], '1')
  , (['B', 'E', 'G', 'I', 'N', 'N', 'E', 'R'], '1')
  , (['Н', 'А', 'Ч', 'И', 'Н', 'А', 'Ю', 'Щ'], '1'), (['О', 'С', 'Н', 'О', 'В'], '1')
  , (['В', 'Т', 'О', 'Р', 'О', 'Й'], '2'), (['S', 'E', 'C', 'O', 'N', 'D'], '2')
  , (['M', 'I', 'D', 'D', 'L', 'E'], '2'), (['С', 'Р', 'Е', 'Д', 'Н'], '2')
  , (['Т', 'Р', 'Е', 'Т', 'И', 'Й'], '3'), (['T', 'H', 'I', 'R', 'D'], '3')
  , (['A', 'D', 'V', 'A', 'N', 'C', 'E', 'D'], '3')
  , (['П', 'Р', 'О', 'Д', 'В', 'И', 'Н', 'У', 'Т'], '3')
  , (['Ч', 'Е', 'Т', 'В', 'Е', 'Р', 'Т', 'Ы', 'Й'], '4')
  , (['F', 'O', 'U', 'R', 'T', 'H'], '4'), (['P', 'R', 'O'], '4')
  , (['П', 'Р', 'О', 'Ф', 'Е', 'С', 'С'], '4')
  ]

/-- The word `МОДУЛЬ` (upper-case Cyrillic), the literal of the regex
`МОДУЛЬ\s*(\d+)` in `identify_course_type` (line 102). -/
def module_word : Str := ['М', 'О', 'Д', 'У', 'Л', 'Ь']

/-- One attempted match of `МОДУЛЬ\s*(\d+)` at the head of `s`: the literal
word, then greedy whitespace, then at least one digit (captured).  Greedy
whitespace with no backtracking is exact here because a digit is never
whitespace. -/
def match_module_at (s : Str) : Option Str :=
  if module_word.isPrefixOf s then
    let rest := (s.drop module_word.length).dropWhile isSpaceChar
    let ds := rest.takeWhile isDigitChar
    if ds.isEmpty then Option.none else some ds
  else Option.none

/-- Models `re.search(r'МОДУЛЬ\s*(\d+)', text_upper)`: leftmost match,
returning the captured digit run. -/
def find_module_num : Str → Option Str
  | [] => Option.none
  | c :: t =>
    match match_module_at (c :: t) with
    | some ds => some ds
    | Option.none => find_module_num t

/-- Models `re.findall(r'(\d+)', text)` followed by `numbers[0]`: the
leftmost maximal digit run, if any. -/
def first_number : Str → Option Str
  | [] => Option.none
  | c :: t => if isDigitChar c then some ((c :: t).takeWhile isDigitChar)
              else first_number t

/-- The `for text_num, digit in self.TEXT_NUMBERS.items()` loop
(lines 110-112): first ordinal word contained in the upper-cased text. -/
def first_text_num : List (Str × Char) → Str → Option Char
  | [], _ => Option.none
  | (pat, d) :: rest, tu =>
    if containsSub tu pat then some d else first_text_num rest tu

/-- The body of one iteration of the pattern loop in `identify_course_type`
(lines 98-114), after the containment test has succeeded: module-marker
number, else first bare integer (searched in the original text), else
ordinal word, else the default `1`. -/
def classify_with_family (course_type : Str) (text tu : Str) : Str :=
  match find_module_num tu with
  | some ds => course_type ++ ds
  | Option.none =>
    match first_number text with
    | some ds => course_type ++ ds
    | Option.none =>
      match first_text_num text_numbers tu with
      | some d => course_type ++ [d]
      | Option.none => course_type ++ ['1']

/-- The `for pattern, course_type in self.COURSE_PATTERNS.items()` loop of
`identify_course_type` (lines 98-114): the first pattern contained in the
upper-cased text decides the family and the function returns from inside
that iteration. -/
def identify_loop : List (Str × Str) → Str → Str → Option Str
  | [], _, _ => Option.none
  | (pat, course_type) :: rest, text, tu =>
    if containsSub tu pat then some (classify_with_family course_type text tu)
    else identify_loop rest text tu

/-- The first family pattern contained in the upper-cased text, used to state
claims about `identify_course_type`. -/
def find_family : List (Str × Str) → Str → Option Str
  | [], _ => Option.none
  | (pat, course_type) :: rest, tu =>
    if containsSub tu pat then some course_type else find_family rest tu

/-- From `parsers/course_parser.py`, `identify_course_type` (lines 90-116).
The `cache_result` memoization decorator has no semantic effect on a pure
function and is not modelled. -/
def identify_course_type (text : Str) : Option Str :=
  if text.isEmpty then Option.none
  else identify_loop course_patterns text (text.map pyToUpperChar)

/-- Python `set.add` on the model of a string set as a duplicate-free list in
insertion order (the set is only ever consumed via `sorted`, so insertion
order is irrelevant to the final output). -/
def set_add (s : List Str) (x : Str) : List Str :=
  if s.contains x then s else s ++ [x]

/-- The lesson marker test of `_process_string_item` (line 87). -/
def lesson_markers : List Str :=
  [ ['М', 'о', 'д', 'у', 'л', 'ь'], ['У', 'р', 'о', 'к']
  , ['м', 'о', 'д', 'у', 'л', 'ь'], ['у', 'р', 'о', 'к'] ]

/-- The inner `for lesson in course_lessons` loop of `_process_dict_item`
(lines 68-75); the accumulator is (courses set, lessons list). -/
def process_lessons (acc : List Str × List Str) (course_lessons : PyVal) :
    List Str × List Str :=
  match course_lessons with
  | .list xs =>
    xs.foldl (fun acc lesson =>
      if pyTruthy lesson then
        let acc := (acc.1, acc.2 ++ [pyStr lesson])
        match identify_course_type (pyStr lesson) with
        | some t => (set_add acc.1 t, acc.2)
        | Option.none => acc
      else acc) acc
  | _ => acc

/-- From `parsers/course_parser.py`, `_process_dict_item` (lines 57-75). -/
def process_dict_item (kvs : List (Str × PyVal)) (acc : List Str × List Str) :
    List Str × List Str :=
  kvs.foldl (fun acc kv =>
    let acc :=
      match identify_course_type kv.1 with
      | some t => (set_add acc.1 t, acc.2)
      | Option.none => acc
    process_lessons acc kv.2) acc

/-- From `parsers/course_parser.py`, `_process_string_item` (lines 77-88). -/
def process_string_item (s : Str) (acc : List Str × List Str) :
    List Str × List Str :=
  let acc :=
    match identify_course_type s with
    | some t => (set_add acc.1 t, acc.2)
    | Option.none => acc
  if lesson_markers.any (fun m => containsSub s m) then (acc.1, acc.2 ++ [s])
  else acc

/-- The `for item in data` loop of `parse` (lines 40-47): `None` items are
skipped, dict and string items are processed, anything else is ignored. -/
def process_item (acc : List Str × List Str) (item : PyVal) :
    List Str × List Str :=
  match item with
  | .dict kvs => process_dict_item kvs acc
  | .str s => process_string_item s acc
  | _ => acc

/-- The accumulation phase of `parse`: courses set and lessons list. -/
def process_all (data : List PyVal) : List Str × List Str :=
  data.foldl process_item ([], [])

/-- Python string `<`: lexicographic comparison by code point, a proper
prefix comparing smaller. -/
def str_lt : Str → Str → Bool
  | [], [] => false
  | [], _ :: _ => true
  | _ :: _, [] => false
  | a :: as, b :: bs => if a = b then str_lt as bs else decide (a < b)

/-- Python string `<=` (used by `sorted` on the courses set). -/
def str_le (a b : Str) : Bool := str_lt a b || a == b

/-- Python tuple `<=` on the sort keys `(course_type, module_num, lesson_num)`
of `_sort_lessons`: lexicographic over string and integer comparison. -/
def key_le (k1 k2 : Str × Nat × Nat) : Bool :=
  str_lt k1.1 k2.1 ||
    (k1.1 == k2.1 &&
      (k1.2.1 < k2.2.1 || (k1.2.1 == k2.2.1 && k1.2.2 ≤ k2.2.2)))

/-- The word `одуль`, tail of the regex literal `[Мм]одуль` used by the sort
key of `_sort_lessons` (line 131). -/
def key_module_tail : Str := ['о', 'д', 'у', 'л', 'ь']

/-- The word `рок`, tail of the regex literal `[Уу]рок` (line 134). -/
def key_lesson_tail : Str := ['р', 'о', 'к']

/-- One attempted match of `<H₁|H₂>tail\s*(\d+)` at the head of `s`
(the shapes `[Мм]одуль\s*(\d+)` and `[Уу]рок\s*(\d+)`). -/
def match_word_num_at (h1 h2 : Char) (tail : Str) (s : Str) : Option Str :=
  match s with
  | [] => Option.none
  | c :: t =>
    if (c = h1 || c = h2) && tail.isPrefixOf t then
      let rest := (t.drop tail.length).dropWhile isSpaceChar
      let ds := rest.takeWhile isDigitChar
      if ds.isEmpty then Option.none else some ds
    else Option.none

/-- Models `re.search` for the two-case word regexes of the sort key:
leftmost match, returning the captured digit run. -/
def find_word_num (h1 h2 : Char) (tail : Str) : Str → Option Str
  | [] => Option.none
  | c :: t =>
    match match_word_num_at h1 h2 tail (c :: t) with
    | some ds => some ds
    | Option.none => find_word_num h1 h2 tail t

/-- Digit run to `Nat` (`int(match.group(1))`). -/
def digits_to_nat (ds : Str) : Nat :=
  ds.foldl (fun a c => a * 10 + (c.toNat - 48)) 0

/-- From `parsers/course_parser.py`, `extract_sort_key` inside `_sort_lessons`
(lines 119-137): family by substring tests on the upper-cased lesson
(`ZZZ` when none matches), module and lesson numbers by the `[Мм]одуль` and
`[Уу]рок` regexes on the original lesson, `999` when absent. -/
def extract_sort_key (lesson : Str) : Str × Nat × Nat :=
  let lu := lesson.map pyToUpperChar
  let course_type : Str :=
    if containsSub lu ['M', 'T', 'T'] || containsSub lu ['М', 'Т', 'Т'] then
      ['M', 'T', 'T']
    else if containsSub lu ['S', 'P', 'I', 'N'] || containsSub lu ['С', 'П', 'И', 'Н'] then
      ['S', 'P', 'I', 'N']
    else if containsSub lu ['C', 'A', 'S', 'H'] || containsSub lu ['К', 'Э', 'Ш']
        || containsSub lu ['К', 'Е', 'Ш'] then
      ['C', 'A', 'S', 'H']
    else ['Z', 'Z', 'Z']
  let module_num :=
    match find_word_num 'М' 'м' key_module_tail lesson with
    | some ds => digits_to_nat ds
    | Option.none => 999
  let lesson_num :=
    match find_word_num 'У' 'у' key_lesson_tail lesson with
    | some ds => digits_to_nat ds
    | Option.none => 999
  (course_type, module_num, lesson_num)

/-- The comparison `_sort_lessons` sorts by. -/
def lesson_le (a b : Str) : Bool := key_le (extract_sort_key a) (extract_sort_key b)

/-- Insertion of one element into a sorted list, placing `x` before the first
element it compares `le` to (this is the unique stable placement). -/
def ordered_insert (le : α → α → Bool) (x : α) : List α → List α
  | [] => [x]
  | y :: ys => if le x y then x :: y :: ys else y :: ordered_insert le x ys

/-- Stable sort by a boolean total preorder.  Python's `sorted` is a stable
sort by the key comparison; every stable sort with respect to the same total
preorder produces the same list, so insertion sort is an exact model of the
output of `sorted`. -/
def stable_sort (le : α → α → Bool) : List α → List α
  | [] => []
  | x :: xs => ordered_insert le x (stable_sort le xs)

/-- From `parsers/course_parser.py`, `_sort_lessons` (lines 118-143):
`sorted(lessons, key=extract_sort_key)`.  The `except` fallback to the
original order (lines 141-143) is unreachable in the model because key
extraction is total. -/
def sort_lessons (lessons : List Str) : List Str := stable_sort lesson_le lessons

/-- `sorted(courses_set)` in `parse` (line 49): plain lexicographic sort. -/
def sort_strings (s : List Str) : List Str := stable_sort str_le s

/-- The truncation marker suffix `\n[TRUNCATED]`. -/
def truncated_marker : Str :=
  '\n' :: ['[', 'T', 'R', 'U', 'N', 'C', 'A', 'T', 'E', 'D', ']']

/-- The `... [N lessons skipped] ...` marker line of `_truncate_lessons`. -/
def skipped_marker (n : Nat) : Str :=
  ['.', '.', '.', ' ', '['] ++ (toString n).toList
    ++ [' ', 'l', 'e', 's', 's', 'o', 'n', 's', ' ',
        's', 'k', 'i', 'p', 'p', 'e', 'd', ']', ' ', '.', '.', '.']

/-- From `parsers/course_parser.py`, `_truncate_lessons` (lines 145-156):
more than 60 lessons keep a head and tail window of 30 with a count marker;
otherwise the newline-joined list is hard-cut at 45000 characters with a
marker appended.  Both branches use the list in its given (unsorted) order. -/
def truncate_lessons (lessons : List Str) : Str :=
  if 60 < lessons.length then
    List.intercalate ['\n']
      (lessons.take 30 ++ [skipped_marker (lessons.length - 60)]
        ++ lessons.drop (lessons.length - 30))
  else
    pySliceTo (List.intercalate ['\n'] lessons) 45000 ++ truncated_marker

/-- From `parsers/course_parser.py`, `parse` (lines 31-55).  The defensive
re-wrapping of non-list `data` (lines 37-38) is subsumed by the argument
type; the `log_execution` decorator only logs. -/
def parse (data : List PyVal) : Str × Str :=
  let acc := process_all data
  let courses_str := List.intercalate ['\n'] (sort_strings acc.1)
  let lessons_sorted := List.intercalate ['\n'] (sort_lessons acc.2)
  let lessons_str :=
    if 45000 < lessons_sorted.length then truncate_lessons acc.2
    else lessons_sorted
  (courses_str, lessons_str)

end CourseParser

namespace Database

open Py

/-- One user's funnel data as produced by `_fetch_funnel_data`
(`services/database.py` lines 160-241): the history is a list of
(datetime, label) pairs already ordered by the SQL `ORDER BY datetime`;
the SQL query itself is an external effect whose result is passed in. -/
structure FunnelInfo where
  history : List (Str × Str)
  last_action_date : Str
  state : Str

/-- The empty default `{'history': [], 'last_action_date': '', 'state': ''}`
used when a user id is missing from the funnel data (lines 262-266). -/
def FunnelInfo.empty : FunnelInfo := ⟨[], [], []⟩

/-- One rendered history event `[{datetime} - {label}]` (line 270). -/
def render_event (e : Str × Str) : Str :=
  '[' :: e.1 ++ (' ' :: '-' :: ' ' :: []) ++ e.2 ++ [']']

/-- The `[...{n} entries...]` marker line of the windowed truncation
(line 280), including its leading newline. -/
def entries_marker (n : Nat) : Str :=
  '\n' :: ['[', '.', '.', '.'] ++ (toString n).toList
    ++ [' ', 'e', 'n', 't', 'r', 'i', 'e', 's', '.', '.', '.', ']']

/-- The `\n[TRUNCATED]` marker of the hard truncation (line 284). -/
def truncated_marker : Str :=
  '\n' :: ['[', 'T', 'R', 'U', 'N', 'C', 'A', 'T', 'E', 'D', ']']

/-- From `services/database.py`, `_merge_funnel_data` (lines 268-284): the
`funnel_history` cell for one user.  Render each event, newline-join; if the
result exceeds 40000 characters, keep the first and last 100 rendered events
around a count marker when there are more than 200 of them (note the source
joins marker and tail with no separating newline), else hard-cut at 40000
and append a marker. -/
def history_cell (history : List (Str × Str)) : Str :=
  let parts := history.map render_event
  let s := List.intercalate ['\n'] parts
  if 40000 < s.length then
    if 200 < parts.length then
      List.intercalate ['\n'] (parts.take 100)
        ++ entries_marker (parts.length - 200)
        ++ List.intercalate ['\n'] (parts.drop (parts.length - 100))
    else
      pySliceTo s 40000 ++ truncated_marker
  else s

/-- Lookup in the `funnel_data` dict built by `_fetch_funnel_data`. -/
def funnel_get (funnel_data : List (Int × FunnelInfo)) (uid : Int) : FunnelInfo :=
  (((funnel_data.find? (fun kv => kv.1 == uid)).map (·.2)).getD FunnelInfo.empty)

/-- From `services/database.py`, `_merge_funnel_data` (lines 243-294): append
the three funnel columns to every user row.  `int(row[0])` can raise
(`IndexError` on an empty row, `TypeError`/`ValueError` on an inconvertible
cell), modelled by `Option`. -/
def merge_funnel_data (users_data : List (List PyVal))
    (funnel_data : List (Int × FunnelInfo)) : Option (List (List PyVal)) :=
  match users_data with
  | [] => some []
  | row :: rest => do
    let uid_val ← pyGet row 0
    let uid ← pyIntOf uid_val
    let fu := funnel_get funnel_data uid
    let merged := row ++ [PyVal.str (history_cell fu.history),
                          PyVal.str fu.last_action_date, PyVal.str fu.state]
    let rest2 ← merge_funnel_data rest funnel_data
    some (merged :: rest2)

end Database

namespace Scheduler

open Py Helpers

/-- The fields of `models/config.py` `DatabaseConfig` consumed by the
enrichment merger; connection and sheet-placement fields are irrelevant to
the embedded functions and omitted. -/
structure DatabaseConfig where
  column_range : Str

/-- One raw user record returned by the PokerHub API, as consumed by
`_integrate_pokerhub_data` and `_build_merged_row`
(`services/scheduler.py` lines 230-346).  `tg_id = none` models a record
without the `'tg_id'` key (the `int` conversion of the raw field is not
modelled separately); for the remaining optional fields `PyVal.none` models
both an absent key and a `null` value, which the source treats identically
through `.get` defaults and truthiness tests. -/
structure PHUser where
  tg_id : Option Int := Option.none
  utm : PyVal := PyVal.none
  referer : PyVal := PyVal.none
  authorization_date : PyVal := PyVal.none
  last_visit_date : PyVal := PyVal.none
  courses : PyVal := PyVal.none
  lessons : PyVal := PyVal.none
  group : PyVal := PyVal.none

/-- The `{}` default of `ph_users_dict.get(int(user_id), {})` (line 269). -/
def PHUser.empty : PHUser := {}

/-- `d.get(key, default)` for a `PyVal` stored in a `PHUser` field. -/
def pv_getD (v dflt : PyVal) : PyVal :=
  match v with
  | .none => dflt
  | w => w

/-- Python dict insertion: replace the value at an existing key in place,
else append the new binding. -/
def dict_insert (m : List (Int × PHUser)) (k : Int) (v : PHUser) :
    List (Int × PHUser) :=
  match m with
  | [] => [(k, v)]
  | (k1, v1) :: rest =>
    if k1 = k then (k, v) :: rest else (k1, v1) :: dict_insert rest k v

/-- From `services/scheduler.py`, lines 250-254: the dict comprehension
`{int(user['tg_id']): user for user in ph_users_raw if 'tg_id' in user}` —
later records overwrite earlier ones on equal ids. -/
def build_ph_dict (users : List PHUser) : List (Int × PHUser) :=
  users.foldl (fun m u =>
    match u.tg_id with
    | some id => dict_insert m id u
    | Option.none => m) []

/-- `dict.get(k)`: the value bound to `k`, if any. -/
def dict_get? (m : List (Int × PHUser)) (k : Int) : Option PHUser :=
  ((m.find? (fun kv => kv.1 == k)).map (·.2))

/-- The eleven header names appended by `_integrate_pokerhub_data`
(lines 258-263). -/
def ph_extra_headers : List Str :=
  (["ph_utm_medium", "ph_utm_source", "ph_utm_campaign",
    "ph_referer", "auth_date", "last_visit",
    "group", "courses", "lessons",
    "last_action_date", "max_funnel_action"] : List String).map String.toList

/-- `parse_to_gs_date` applied to a `PyVal` argument, as at lines 290-291:
falsy input gives `''` inside `parse_to_gs_date`; a non-string truthy value
would raise (`AttributeError` on `.replace`), modelled by `none`. -/
def parse_to_gs_date_py (v : PyVal) : Option PyVal :=
  if ¬ pyTruthy v then some (.str [])
  else match v with
    | .str s => some (.str (parse_to_gs_date s))
    | _ => Option.none

/-- Lines 341-346 of `_build_merged_row`: right-pad the row with empty cells
up to the end-column index, or cut it down to that index. -/
def normalize_row_width (new_row : List PyVal) (end_col_index : Int) :
    List PyVal :=
  if (new_row.length : Int) < end_col_index then
    new_row ++ List.replicate (end_col_index - new_row.length).toNat (.str [])
  else if end_col_index < (new_row.length : Int) then
    pySliceTo new_row end_col_index
  else new_row

/-- Lines 286-335 of `_build_merged_row`: the `new_row` before width
normalization.  `none` models the exceptions the source can raise:
`row[-2]` on a row shorter than 2 (`IndexError`), `.strftime` on a truthy
non-datetime cell (`AttributeError`), `.get` on a truthy non-dict `utm`
value, and a non-string truthy date field inside `parse_to_gs_date`.
The parser is `CourseParser.parse`. -/
def build_new_row (row : List PyVal) (ph_user_data : PHUser)
    (ph_utm : PyVal) : Option (List PyVal) := do
  let utm_medium ← pyDictGet ph_utm (String.toList "utm_medium") (.str [])
  let utm_source ← pyDictGet ph_utm (String.toList "utm_source") (.str [])
  let utm_campaign ← pyDictGet ph_utm (String.toList "utm_campaign") (.str [])
  let referer := pv_getD ph_user_data.referer (.str [])
  let auth_date ← parse_to_gs_date_py (pv_getD ph_user_data.authorization_date (.str []))
  let last_visit ← parse_to_gs_date_py (pv_getD ph_user_data.last_visit_date (.str []))
  let all_data :=
    (if pyTruthy ph_user_data.courses then
      match ph_user_data.courses with
      | .dict kvs => [PyVal.dict kvs]
      | _ => []
    else [])
    ++ (if pyTruthy ph_user_data.lessons then
      match ph_user_data.lessons with
      | .list xs => xs
      | v => [v]
    else [])
    ++ (if pyTruthy ph_user_data.group then
      match ph_user_data.group with
      | .list xs => xs
      | v => [v]
    else [])
  let parsed := CourseParser.parse all_data
  let group_items := pv_getD ph_user_data.group (.list [])
  let group : PyVal :=
    match group_items with
    | .list xs =>
      .str (List.intercalate ['\n'] (xs.filterMap (fun g =>
        match g with
        | .str s =>
          if ¬ (containsSub s (String.toList "Модуль")
                && containsSub s (String.toList "Урок")) then some s
          else Option.none
        | _ => Option.none)))
    | v => if pyTruthy v then .str (pyStr v) else .str []
  let cell2 ← pyGet row (-2)
  let user_last_action_datetime ←
    if pyTruthy cell2 then
      match cell2 with
      | .dt s => some (PyVal.str (parse_to_gs_date s))
      | _ => Option.none
    else some (PyVal.str [])
  let cell1 ← pyGet row (-1)
  let user_last_funnel_state := if pyTruthy cell1 then cell1 else PyVal.str []
  pure (pySliceTo row (-2) ++
    [utm_medium, utm_source, utm_campaign, referer,
     auth_date, last_visit, group, .str parsed.1, .str parsed.2,
     user_last_action_datetime, user_last_funnel_state])

/-- From `services/scheduler.py`, `_build_merged_row` (lines 279-346):
the assembled `new_row` padded or truncated to the end-column index of the
configured column range (lines 337-346). -/
def build_merged_row (row : List PyVal) (ph_user_data : PHUser)
    (ph_utm : PyVal) (config : DatabaseConfig) : Option (List PyVal) :=
  (build_new_row row ph_user_data ph_utm).map (fun new_row =>
    normalize_row_width new_row
      (get_column_index (get_column_range_end config.column_range)))

/-- The `[row[0] for row in user_data if row and row[0] is not None]`
comprehension (line 238). -/
def extract_user_ids (user_data : List (List PyVal)) : List PyVal :=
  user_data.filterMap (fun row =>
    match row with
    | [] => Option.none
    | c :: _ =>
      match c with
      | .none => Option.none
      | v => some v)

/-- The `for row in user_data` merge loop of `_integrate_pokerhub_data`
(lines 265-273): `row[0]` and `int(user_id)` can raise, modelled by
`Option`; a failure aborts the whole merge like an exception would. -/
def merge_rows (config : DatabaseConfig) (ph_dict : List (Int × PHUser)) :
    List (List PyVal) → Option (List (List PyVal))
  | [] => some []
  | row :: rest => do
    let uid_val ← pyGet row 0
    let uid ← pyIntOf uid_val
    let ph := (dict_get? ph_dict uid).getD PHUser.empty
    let ph_utm := if pyTruthy ph.utm then ph.utm else PyVal.dict []
    let merged ← build_merged_row row ph ph_utm config
    let rest2 ← merge_rows config ph_dict rest
    some (merged :: rest2)

/-- From `services/scheduler.py`, `_integrate_pokerhub_data` (lines 230-277).
The PokerHub API call is an external effect; its response `ph_users_raw` is
passed as an argument.  Empty id list or empty response short-circuit to the
unchanged data (lines 240-248). -/
def integrate_pokerhub_data (user_data : List (List PyVal))
    (headers : List Str) (ph_users_raw : List PHUser)
    (config : DatabaseConfig) : Option (List (List PyVal) × List Str) :=
  if (extract_user_ids user_data).isEmpty then some (user_data, headers)
  else if ph_users_raw.isEmpty then some (user_data, headers)
  else
    let ph_dict := build_ph_dict ph_users_raw
    let merged_headers := headers ++ ph_extra_headers
    (merge_rows config ph_dict user_data).map (fun rows => (rows, merged_headers))

/-- From `services/scheduler.py`, `update_all_sheets` (lines 157-187).
Each entry of `tasks` is the outcome of one `_update_single_sheet` task;
`asyncio.gather(*tasks, return_exceptions=True)` delivers every outcome,
exceptions included, without raising — so the function itself always
returns, yielding the per-iteration (success count, error count). -/
def update_all_sheets (tasks : List (Except Str Unit)) :
    Except Str (Nat × Nat) :=
  let error_count := (tasks.filter (fun r =>
    match r with
    | .error _ => true
    | .ok _ => false)).length
  .ok (tasks.length - error_count, error_count)

/-- The steady-state loop of `run` (lines 104-116): one `update_all_sheets`
call per tick until shutdown; the list of ticks carries each tick's per-job
outcomes.  An exception escaping `update_all_sheets` would abort the loop
through the `Except` bind. -/
def scheduler_loop : List (List (Except Str Unit)) →
    Except Str (List (Nat × Nat))
  | [] => .ok []
  | tick :: rest => do
    let outcome ← update_all_sheets tick
    let more ← scheduler_loop rest
    .ok (outcome :: more)

end Scheduler

section ColumnTheorems

open Py Helpers

theorem gci_append (xs : Str) (c : Char) :
    get_column_index (xs ++ [c]) =
      get_column_index xs * 26 + (((pyToUpperChar c).toNat : Int) - 65 + 1) := by
  simp [get_column_index, List.foldl_append]

theorem up_ofNat (r : Nat) (hr : r < 26) :
    (pyToUpperChar (Char.ofNat (65 + r))).toNat = 65 + r := by
  interval_cases r <;> decide

theorem gci_gcl (n : Nat) :
    get_column_index (get_column_letter n) = (n : Int) := by
  induction n using Nat.strong_induction_on with
  | _ n ih =>
    rw [get_column_letter]
    by_cases h : n = 0
    · subst h; simp [get_column_index]
    · rw [dif_neg h, gci_append]
      have hm : (n - 1) / 26 < n :=
        Nat.lt_of_le_of_lt (Nat.div_le_self _ _) (by omega)
      rw [ih _ hm]
      have hr : (n - 1) % 26 < 26 := Nat.mod_lt _ (by norm_num)
      rw [up_ofNat _ hr]
      have hdm := Nat.div_add_mod (n - 1) 26
      push_cast
      omega

/-- C9: for every n ≥ 1, decoding the spreadsheet column letters produced by
`get_column_letter n` with `get_column_index` gives back `n`: the two
conversions are mutually inverse on positive column numbers. -/
theorem claim_C9_column_roundtrip (n : Nat) (h : 1 ≤ n) :
    get_column_index (get_column_letter n) = (n : Int) :=
  gci_gcl n

/-- Witness for C9 at n = 28 (column letters `AB`). -/
theorem claim_C9_column_roundtrip_witness :
    1 ≤ 28 ∧ get_column_index (get_column_letter 28) = (28 : Int) :=
  ⟨by norm_num, claim_C9_column_roundtrip 28 (by norm_num)⟩

end ColumnTheorems

section RetryTheorems

open Retry

theorem retry_loop_ok {E A : Type} (M N : Nat) (retryable : E → Bool)
    (op : Nat → Except E A) (a : A) (hNM : N ≤ M)
    (hsucc : op (N - 1) = .ok a)
    (hfail : ∀ i, i < N - 1 → ∃ e, op i = .error e ∧ retryable e = true) :
    ∀ j k, j = N - 1 - k → k < N →
      retry_loop M retryable op k k = (.ok (some a), N) := by
  intro j
  induction j with
  | zero =>
    intro k hj hk
    have hk1 : k = N - 1 := by omega
    rw [retry_loop, if_pos (by omega : k < M)]
    rw [hk1, hsucc]
    have : N - 1 + 1 = N := by omega
    simp [this]
  | succ j ihj =>
    intro k hj hk
    have hkN : k < N - 1 := by omega
    obtain ⟨e, hop, hr⟩ := hfail k hkN
    rw [retry_loop, if_pos (by omega : k < M), hop]
    simp only [hr, if_true, if_neg (by omega : ¬ M ≤ k + 1)]
    exact ihj (k + 1) (by omega) (by omega)

theorem retry_loop_fail {E A : Type} (M : Nat) (retryable : E → Bool)
    (op : Nat → Except E A) (e : Nat → E)
    (hop : ∀ i, op i = .error (e i)) (hr : ∀ i, retryable (e i) = true) :
    ∀ j k, j = M - 1 - k → k < M →
      retry_loop M retryable op k k =
        ((.error (e (M - 1)) : Except E (Option A)), M) := by
  intro j
  induction j with
  | zero =>
    intro k hj hk
    have hk1 : k = M - 1 := by omega
    rw [retry_loop, if_pos (by omega : k < M), hop]
    simp only [hr, if_true, if_pos (by omega : M ≤ k + 1)]
    rw [hk1]
    have : M - 1 + 1 = M := by omega
    simp [this]
  | succ j ihj =>
    intro k hj hk
    rw [retry_loop, if_pos (by omega : k < M), hop]
    simp only [hr, if_true, if_neg (by omega : ¬ M ≤ k + 1)]
    exact ihj (k + 1) (by omega) (by omega)

/-- C5: the retry policy with `max_attempts = M ≥ 1`, when only errors of the
configured categories are raised: an operation succeeding on its N-th
invocation (N ≤ M) makes the wrapped call return that success after exactly
N invocations; an operation failing on every invocation makes the wrapped
call raise the final error after exactly M invocations. -/
theorem claim_C5_retry_counts :
    (∀ (E A : Type) (M N : Nat) (retryable : E → Bool)
        (op : Nat → Except E A) (a : A),
      1 ≤ N → N ≤ M → op (N - 1) = .ok a →
      (∀ i, i < N - 1 → ∃ e, op i = .error e ∧ retryable e = true) →
      async_retry M retryable op = (.ok (some a), N))
    ∧ (∀ (E A : Type) (M : Nat) (retryable : E → Bool)
        (op : Nat → Except E A) (e : Nat → E),
      1 ≤ M → (∀ i, op i = .error (e i)) → (∀ i, retryable (e i) = true) →
      async_retry M retryable op = (.error (e (M - 1)), M)) := by
  constructor
  · intro E A M N retryable op a hN hNM hsucc hfail
    exact retry_loop_ok M N retryable op a hNM hsucc hfail (N - 1 - 0) 0 rfl
      (by omega)
  · intro E A M retryable op e hM hop hr
    exact retry_loop_fail M retryable op e hop hr (M - 1 - 0) 0 rfl (by omega)

/-- Witness for C5: success on the 2nd of 3 attempts returns the value after
2 invocations; permanent failure with 2 attempts raises the last error after
2 invocations. -/
theorem claim_C5_retry_counts_witness :
    Retry.async_retry 3 (fun _ : Unit => true)
        (fun i => if i < 1 then Except.error () else Except.ok 7)
      = (.ok (some 7), 2)
    ∧ Retry.async_retry 2 (fun _ : Unit => true)
        (fun i => (Except.error () : Except Unit Bool)) = (.error (), 2) := by
  constructor
  · exact claim_C5_retry_counts.1 Unit Nat 3 2 _ _ 7 (by norm_num) (by norm_num)
      (by norm_num) (by
        intro i hi
        exact ⟨(), by simp [show i = 0 by omega], rfl⟩)
  · exact claim_C5_retry_counts.2 Unit Bool 2 _ _ (fun _ => ()) (by norm_num)
      (fun _ => rfl) (fun _ => rfl)

/-- C10: with `max_attempts = 0` the `while` loop body never runs: the
wrapped call returns the `None` sentinel, invokes the operation zero times,
and raises nothing. -/
theorem claim_C10_zero_attempts (E A : Type) (retryable : E → Bool)
    (op : Nat → Except E A) :
    Retry.async_retry 0 retryable op = (.ok Option.none, 0) := by
  rw [Retry.async_retry, Retry.retry_loop]
  simp

end RetryTheorems

section SchedulerTheorems

open Py Scheduler

/-- C3: one scheduler iteration over 3 jobs of which exactly the second
fails yields 2 successful and 1 failed outcome without raising, and the loop
goes on to run the next iteration to completion as well.  Concurrency is
modelled by the list of per-task results delivered by
`asyncio.gather(..., return_exceptions=True)`. -/
theorem claim_C3_failure_isolation :
    update_all_sheets
        [.ok (), .error (String.toList "job 2 failed"), .ok ()] = .ok (2, 1)
    ∧ scheduler_loop
        [[.ok (), .error (String.toList "job 2 failed"), .ok ()],
         [.ok (), .error (String.toList "job 2 failed"), .ok ()]]
      = .ok [(2, 1), (2, 1)] := by
  constructor <;> rfl

theorem dict_get_insert_self (m : List (Int × PHUser)) (k : Int) (v : PHUser) :
    dict_get? (dict_insert m k v) k = some v := by
  induction m with
  | nil => simp [dict_insert, dict_get?, List.find?]
  | cons kv rest ih =>
    by_cases h : kv.1 = k
    · simp [dict_insert, h, dict_get?, List.find?]
    · obtain ⟨k1, v1⟩ := kv
      simp only at h
      simp [dict_insert, h, dict_get?, List.find?, ih,
        show (k1 == k) = false by simpa using h]
      simpa [dict_get?] using ih

theorem dict_get_insert_other (m : List (Int × PHUser)) (k k1 : Int)
    (v : PHUser) (h : k1 ≠ k) :
    dict_get? (dict_insert m k v) k1 = dict_get? m k1 := by
  induction m with
  | nil => simp [dict_insert, dict_get?, List.find?,
      show (k == k1) = false by simpa using (Ne.symm h)]
  | cons kv rest ih =>
    obtain ⟨k2, v2⟩ := kv
    by_cases h2 : k2 = k
    · subst h2
      simp [dict_insert, dict_get?, List.find?,
        show (k2 == k1) = false by simpa using fun e => h e.symm]
    · simp only [dict_insert, if_neg h2]
      by_cases h3 : k2 = k1
      · subst h3
        simp [dict_get?, List.find?]
      · simp only [dict_get?, List.find?,
          show (k2 == k1) = false by simpa using h3, cond_false] at ih ⊢
        exact ih

theorem getLast?_cons {α : Type} (a : α) (l : List α) :
    (a :: l).getLast? = l.getLast?.getD a := by
  induction l generalizing a with
  | nil => rfl
  | cons b t ih => simp [List.getLast?_cons_cons, ih b]

theorem build_ph_dict_foldl (users : List PHUser) (m : List (Int × PHUser))
    (id : Int) :
    dict_get? (users.foldl (fun m u =>
        match u.tg_id with
        | some i => dict_insert m i u
        | Option.none => m) m) id =
      (((users.filter (fun u => u.tg_id == some id)).getLast?).map some).getD
        (dict_get? m id) := by
  induction users generalizing m with
  | nil => simp
  | cons u rest ih =>
    simp only [List.foldl_cons]
    rcases htg : u.tg_id with _ | j
    · have : (u.tg_id == some id) = false := by simp [htg]
      simp [List.filter_cons, this, ih]
    · by_cases hji : j = id
      · rw [hji] at htg
        have hpred : (u.tg_id == some id) = true := by simp [htg]
        simp only [List.filter_cons, hpred, if_true]
        rw [ih, getLast?_cons]
        rcases hlast : (rest.filter (fun u => u.tg_id == some id)).getLast? with
          _ | w
        · simp [hlast, hji, dict_get_insert_self]
        · simp [hlast]
      · have hpred : (u.tg_id == some id) = false := by simp [htg, hji]
        simp [List.filter_cons, hpred, ih, dict_get_insert_other _ _ _ _
          (fun e => hji e.symm)]

/-- C8: when two or more PokerHub records share a subject id, the lookup map
built by `_integrate_pokerhub_data` retains the record occurring last in the
source list, and that is the record `merge_rows` uses for the subject. -/
theorem claim_C8_last_wins (users : List PHUser) (id : Int)
    (h : 2 ≤ (users.filter (fun u => u.tg_id == some id)).length) :
    dict_get? (build_ph_dict users) id =
      (users.filter (fun u => u.tg_id == some id)).getLast? := by
  rw [build_ph_dict, build_ph_dict_foldl]
  rcases hlast : (users.filter (fun u => u.tg_id == some id)).getLast? with _ | w
  · rw [List.getLast?_eq_none_iff] at hlast
    rw [hlast] at h
    simp at h
  · rw [hlast]
    rfl

/-- Witness for C8: two records with id 5, distinguished by their referer
field; the retained record is the second. -/
theorem claim_C8_last_wins_witness :
    2 ≤ (([⟨some 5, .none, .none, .none, .none, .none, .none, .none⟩,
           ⟨some 5, .none, PyVal.str ['x'], .none, .none, .none, .none, .none⟩]
          : List PHUser).filter (fun u => u.tg_id == some (5 : Int))).length
    ∧ dict_get? (build_ph_dict
        [⟨some 5, .none, .none, .none, .none, .none, .none, .none⟩,
         ⟨some 5, .none, PyVal.str ['x'], .none, .none, .none, .none, .none⟩]) 5 =
      (([⟨some 5, .none, .none, .none, .none, .none, .none, .none⟩,
         ⟨some 5, .none, PyVal.str ['x'], .none, .none, .none, .none, .none⟩]
        : List PHUser).filter (fun u => u.tg_id == some (5 : Int))).getLast? :=
  ⟨by decide, claim_C8_last_wins _ 5 (by decide)⟩

end SchedulerTheorems

section RowWidthTheorems

open Py Scheduler Helpers

theorem normalize_row_width_length (l : List PyVal) (k : Int) (hk : 0 ≤ k) :
    (normalize_row_width l k).length = k.toNat := by
  unfold normalize_row_width
  split_ifs with h1 h2
  · simp only [List.length_append, List.length_replicate]
    omega
  · simp only [pySliceTo, if_pos hk, List.length_take]
    omega
  · omega

theorem build_merged_row_length (row : List PyVal) (ph : PHUser)
    (utm : PyVal) (cfg : DatabaseConfig) (out : List PyVal)
    (h : build_merged_row row ph utm cfg = some out)
    (hk : 0 ≤ get_column_index (get_column_range_end cfg.column_range)) :
    out.length = (get_column_index (get_column_range_end cfg.column_range)).toNat := by
  rw [build_merged_row, Option.map_eq_some'] at h
  obtain ⟨nr, _hnr, hout⟩ := h
  exact hout ▸ normalize_row_width_length _ _ hk

/-- C4: every row emitted by `_build_merged_row` has length equal to the
index of the end column of the configured column range, whether or not the
subject had a matching enrichment record; rows shorter than the span are
right-padded with empty cells, longer ones are truncated. -/
theorem claim_C4_row_width :
    (∀ (row : List PyVal) (ph : PHUser) (utm : PyVal) (cfg : DatabaseConfig)
        (out : List PyVal),
      build_merged_row row ph utm cfg = some out →
      0 ≤ get_column_index (get_column_range_end cfg.column_range) →
      out.length = (get_column_index (get_column_range_end cfg.column_range)).toNat)
    ∧ (∀ (l : List PyVal) (k : Int), (l.length : Int) < k →
        normalize_row_width l k =
          l ++ List.replicate (k - l.length).toNat (.str []))
    ∧ (∀ (l : List PyVal) (k : Int), 0 ≤ k → k < (l.length : Int) →
        normalize_row_width l k = l.take k.toNat) := by
  refine ⟨build_merged_row_length, ?_, ?_⟩
  · intro l k h1
    rw [normalize_row_width, if_pos h1]
  · intro l k hk h2
    rw [normalize_row_width, if_neg (by omega), if_pos h2, pySliceTo,
      if_pos hk]

/-- Concrete inputs shared by the C4 witness and the C1 counterexample. -/
def sample_row : List PyVal := [PyVal.int 5, PyVal.none, PyVal.str ['x']]

/-- A config whose end column `N` has index 14. -/
def cfg_an : Scheduler.DatabaseConfig := ⟨String.toList "A:N"⟩

/-- The row `_build_merged_row` produces from `sample_row` under `cfg_an`. -/
def sample_out : List PyVal :=
  [PyVal.int 5] ++ List.replicate 10 (PyVal.str []) ++ [PyVal.str ['x']]
    ++ List.replicate 2 (PyVal.str [])

/-- Witness for C4: a concrete merged row for a subject with no matching
enrichment record; the configured span is 14 and the emitted row has
length 14. -/
theorem claim_C4_row_width_witness :
    build_merged_row sample_row PHUser.empty (PyVal.dict []) cfg_an
        = some sample_out
    ∧ 0 ≤ get_column_index (get_column_range_end cfg_an.column_range)
    ∧ sample_out.length
        = (get_column_index (get_column_range_end cfg_an.column_range)).toNat
    ∧ (List.replicate 3 (PyVal.str []) ++ [PyVal.int 7]).length = 4
    ∧ (4 : Int) < 6
    ∧ normalize_row_width (List.replicate 3 (PyVal.str []) ++ [PyVal.int 7]) 6
        = (List.replicate 3 (PyVal.str []) ++ [PyVal.int 7])
          ++ List.replicate ((6 : Int)
              - (List.replicate 3 (PyVal.str []) ++ [PyVal.int 7]).length).toNat
              (.str [])
    ∧ (0 : Int) ≤ 2
    ∧ (2 : Int) < (List.replicate 3 (PyVal.str []) ++ [PyVal.int 7]).length
    ∧ normalize_row_width (List.replicate 3 (PyVal.str []) ++ [PyVal.int 7]) 2
        = (List.replicate 3 (PyVal.str []) ++ [PyVal.int 7]).take (2 : Int).toNat :=
  ⟨rfl, by decide,
   claim_C4_row_width.1 sample_row PHUser.empty (PyVal.dict []) cfg_an
     sample_out rfl (by decide),
   by decide, by decide,
   claim_C4_row_width.2.1 _ 6 (by decide),
   by decide, by decide,
   claim_C4_row_width.2.2 _ 2 (by decide) (by decide)⟩

end RowWidthTheorems

section EnrichmentInvariantTheorems

open Py Scheduler Helpers

theorem merge_rows_length (cfg : DatabaseConfig) (d : List (Int × PHUser))
    (ud : List (List PyVal)) (rows : List (List PyVal))
    (h : merge_rows cfg d ud = some rows)
    (hk : 0 ≤ get_column_index (get_column_range_end cfg.column_range)) :
    ∀ r ∈ rows,
      r.length = (get_column_index (get_column_range_end cfg.column_range)).toNat := by
  induction ud generalizing rows with
  | nil =>
    simp only [merge_rows, Option.some.injEq] at h
    subst h
    simp
  | cons row rest ih =>
    simp only [merge_rows, Option.bind_eq_bind, Option.bind_eq_some,
      Option.some.injEq] at h
    obtain ⟨v, _hv, uid, _huid, merged, hm, rest2, hr2, hrows⟩ := h
    subst hrows
    intro r hr
    rcases List.mem_cons.mp hr with hr | hr
    · subst hr
      exact build_merged_row_length _ _ _ _ _ hm hk
    · exact ih rest2 hr2 r hr

/-- Headers used by the C1 counterexample: three columns, matching the
three-cell sample row. -/
def sample_headers : List Str :=
  [String.toList "id", String.toList "a", String.toList "b"]

/-- A config whose end column `C` has index 3. -/
def cfg_ac : Scheduler.DatabaseConfig := ⟨String.toList "A:C"⟩

/-- A PokerHub record for subject 5 with no optional fields. -/
def sample_ph_user : PHUser := { tg_id := some 5 }

/-- C1 counterexample: on a dataset whose single row has exactly the header
length (3), `_integrate_pokerhub_data` emits a row of length 3 (the
configured end-column index for range `A:C`) but an output header list of
length 14 (the input headers plus eleven enrichment names), so the
row/header length invariant is broken by the enrichment merger. -/
theorem claim_C1_counterexample :
    ([[PyVal.int 5, PyVal.none, PyVal.str ['x']]] : List (List PyVal)).map
        List.length = [sample_headers.length]
    ∧ ((integrate_pokerhub_data [[PyVal.int 5, PyVal.none, PyVal.str ['x']]]
          sample_headers [sample_ph_user] cfg_ac).map
        (fun p => (p.1.map List.length, p.2.length))) = some ([3], 14)
    ∧ (3 : Nat) ≠ 14 :=
  ⟨rfl, rfl, by decide⟩

/-- C1 amended: when the enrichment merge path actually runs (non-empty id
list and non-empty API response) over a well-formed column range, every
output row's length equals the end-column index of the configured range,
while the output header list's length is the input header length plus 11;
the row/header invariant therefore holds exactly when that index equals the
input header length plus 11, and not in general. -/
theorem claim_C1_amended (ud : List (List PyVal)) (hdrs : List Str)
    (phs : List PHUser) (cfg : DatabaseConfig)
    (rows : List (List PyVal)) (hdrs2 : List Str)
    (h1 : ¬ (extract_user_ids ud).isEmpty)
    (h2 : ¬ phs.isEmpty)
    (hk : 0 ≤ get_column_index (get_column_range_end cfg.column_range))
    (h : integrate_pokerhub_data ud hdrs phs cfg = some (rows, hdrs2)) :
    (∀ r ∈ rows,
      r.length = (get_column_index (get_column_range_end cfg.column_range)).toNat)
    ∧ hdrs2.length = hdrs.length + 11 := by
  rw [integrate_pokerhub_data, if_neg h1, if_neg h2] at h
  rw [Option.map_eq_some'] at h
  obtain ⟨rows0, hm, hpair⟩ := h
  injection hpair with hrows hhdrs
  subst hrows
  subst hhdrs
  refine ⟨merge_rows_length cfg _ ud rows0 hm hk, ?_⟩
  simp [ph_extra_headers]

/-- Witness for C1 amended, on the counterexample inputs. -/
theorem claim_C1_amended_witness :
    ¬ (extract_user_ids [[PyVal.int 5, PyVal.none, PyVal.str ['x']]]).isEmpty
    ∧ ¬ ([sample_ph_user] : List PHUser).isEmpty
    ∧ 0 ≤ get_column_index (get_column_range_end cfg_ac.column_range)
    ∧ ((∀ r ∈ ([[PyVal.int 5, PyVal.str [], PyVal.str []]] : List (List PyVal)),
          r.length = (get_column_index (get_column_range_end cfg_ac.column_range)).toNat)
        ∧ (sample_headers ++ ph_extra_headers).length = sample_headers.length + 11) :=
  ⟨by decide, by decide, by decide,
   claim_C1_amended [[PyVal.int 5, PyVal.none, PyVal.str ['x']]] sample_headers
     [sample_ph_user] cfg_ac [[PyVal.int 5, PyVal.str [], PyVal.str []]]
     (sample_headers ++ ph_extra_headers)
     (by decide) (by decide) (by decide) rfl⟩

end EnrichmentInvariantTheorems

section HistoryCellTheorems

open Py Database

/-- A one-event history whose label has 40000 characters. -/
def sample_history : List (Str × Str) := [(['t'], List.replicate 40000 'a')]

theorem intercalate_singleton (sep x : Str) : List.intercalate sep [x] = x := by
  simp [List.intercalate]

theorem sample_history_render_length :
    (render_event (['t'], List.replicate 40000 'a')).length = 40006 := by
  show (('[' :: ['t']) ++ ([' ', '-', ' ']
      ++ (List.replicate 40000 'a' ++ [']']))).length = 40006
  rw [List.length_append, List.length_append, List.length_append,
    List.length_replicate]
  decide

/-- C2 counterexample: a single-event history rendering to 40006 characters
takes the hard-truncation branch of `_merge_funnel_data`, whose output is
the 40000-character cut plus the 12-character `\n[TRUNCATED]` marker: the
`funnel_history` cell has 40012 > 40000 characters.  The last conjunct shows
the cell as it is emitted per-row by `_merge_funnel_data`. -/
theorem claim_C2_counterexample :
    (history_cell sample_history).length = 40012
    ∧ 40000 < (history_cell sample_history).length
    ∧ merge_funnel_data [[PyVal.int 1]] [(1, ⟨sample_history, [], []⟩)]
        = some [[PyVal.int 1, PyVal.str (history_cell sample_history),
                 PyVal.str [], PyVal.str []]] := by
  have hlen : (history_cell sample_history).length = 40012 := by
    rw [history_cell]
    have hparts : sample_history.map render_event
        = [render_event (['t'], List.replicate 40000 'a')] := rfl
    rw [hparts, intercalate_singleton]
    rw [if_pos (by rw [sample_history_render_length]; norm_num)]
    rw [if_neg (by rw [List.length_cons, List.length_nil]; norm_num)]
    rw [List.length_append, pySliceTo, if_pos (by norm_num : (0 : Int) ≤ 40000),
      List.length_take, sample_history_render_length]
    rw [truncated_marker]
    decide
  refine ⟨hlen, by rw [hlen]; norm_num, ?_⟩
  rfl

/-- C2 amended: the `funnel_history` cell is bounded by 40012 characters
(the 40000-character ceiling plus the 12-character truncation marker) for
every history of at most 200 events, zero included; the claimed 40000
ceiling itself is exceeded by up to 12 characters in the hard-truncation
branch, and for more than 200 events the head/tail windowed form is not
bounded by any fixed ceiling. -/
theorem claim_C2_amended (history : List (Str × Str))
    (h : history.length ≤ 200) :
    (history_cell history).length ≤ 40012 := by
  rw [history_cell]
  have hparts : (history.map render_event).length = history.length := by simp
  split_ifs with h1 h2
  · omega
  · rw [List.length_append, pySliceTo, if_pos (by norm_num : (0 : Int) ≤ 40000),
      List.length_take]
    rw [truncated_marker]
    rw [show (('\n' :: ['[', 'T', 'R', 'U', 'N', 'C', 'A', 'T', 'E', 'D', ']'])
        : Str).length = 12 from rfl]
    omega
  · omega

/-- Witness for C2 amended at the empty history. -/
theorem claim_C2_amended_witness :
    ([] : List (Str × Str)).length ≤ 200
    ∧ (history_cell []).length ≤ 40012 :=
  ⟨by decide, claim_C2_amended [] (by decide)⟩

end HistoryCellTheorems

section ClassifierTheorems

open Py CourseParser

theorem identify_loop_family (pats : List (Str × Str)) (text tu fam : Str)
    (h : find_family pats tu = some fam) :
    identify_loop pats text tu = some (classify_with_family fam text tu) := by
  induction pats with
  | nil => simp [find_family] at h
  | cons p rest ih =>
    obtain ⟨pat, ct⟩ := p
    by_cases hc : containsSub tu pat
    · rw [find_family, if_pos hc] at h
      injection h with h
      subst h
      rw [identify_loop, if_pos hc]
    · rw [find_family, if_neg hc] at h
      rw [identify_loop, if_neg hc]
      exact ih h

/-- C6: for every text containing a course-family marker (first matching
pattern of `COURSE_PATTERNS` giving normalized family `fam`) and an explicit
`МОДУЛЬ <N>` module marker (leftmost regex match capturing digits `num`),
`identify_course_type` returns exactly `fam ++ num`: the module marker takes
precedence over bare integers, ordinal words and the default. -/
theorem claim_C6_module_marker (text fam num : Str)
    (hfam : find_family course_patterns (text.map pyToUpperChar) = some fam)
    (hmod : find_module_num (text.map pyToUpperChar) = some num) :
    identify_course_type text = some (fam ++ num) := by
  have htext : text.isEmpty = false := by
    cases text with
    | nil =>
      have h0 : find_family course_patterns (List.map pyToUpperChar [])
          = Option.none := by decide
      rw [h0] at hfam
      simp at hfam
    | cons c t => rfl
  rw [identify_course_type]
  rw [htext]
  simp only [Bool.false_eq_true, if_false]
  rw [identify_loop_family _ _ _ _ hfam]
  rw [classify_with_family, hmod]

/-- Witness for C6 on the repository's own test vector `МТТ Модуль 2`,
classified as `MTT2`. -/
theorem claim_C6_module_marker_witness :
    find_family course_patterns
        ((String.toList "МТТ Модуль 2").map pyToUpperChar)
      = some (String.toList "MTT")
    ∧ find_module_num ((String.toList "МТТ Модуль 2").map pyToUpperChar)
      = some ['2']
    ∧ identify_course_type (String.toList "МТТ Модуль 2")
      = some (String.toList "MTT" ++ ['2']) :=
  ⟨by decide, by decide,
   claim_C6_module_marker (String.toList "МТТ Модуль 2")
     (String.toList "MTT") ['2'] (by decide) (by decide)⟩

end ClassifierTheorems

section SortingTheorems

open Py CourseParser

theorem str_lt_trans : ∀ a b c : Str, str_lt a b = true → str_lt b c = true →
    str_lt a c = true := by
  intro a
  induction a with
  | nil =>
    intro b c hab hbc
    cases b with
    | nil => simp [str_lt] at hab
    | cons y ys =>
      cases c with
      | nil => simp [str_lt] at hbc
      | cons z zs => rfl
  | cons x xs ih =>
    intro b c hab hbc
    cases b with
    | nil => simp [str_lt] at hab
    | cons y ys =>
      cases c with
      | nil => simp [str_lt] at hbc
      | cons z zs =>
        rw [str_lt] at hab hbc ⊢
        by_cases hxy : x = y <;> by_cases hyz : y = z
        · subst hxy; subst hyz
          rw [if_pos rfl] at hab hbc ⊢
          exact ih ys zs hab hbc
        · subst hxy
          rw [if_pos rfl] at hab
          rw [if_neg hyz] at hbc ⊢
          exact hbc
        · subst hyz
          rw [if_neg hxy] at hab ⊢
          exact hab
        · rw [if_neg hxy] at hab
          rw [if_neg hyz] at hbc
          rw [decide_eq_true_iff] at hab hbc
          have hxz : x < z := lt_trans hab hbc
          have hnxz : x ≠ z := by
            intro h
            rw [h] at hxz
            exact absurd hxz (lt_irrefl z)
          rw [if_neg hnxz, decide_eq_true_iff]
          exact hxz

theorem str_lt_total : ∀ a b : Str,
    (str_lt a b || a == b || str_lt b a) = true := by
  intro a
  induction a with
  | nil =>
    intro b
    cases b <;> simp [str_lt]
  | cons x xs ih =>
    intro b
    cases b with
    | nil => simp [str_lt]
    | cons y ys =>
      by_cases hxy : x = y
      · subst hxy
        have h := ih ys
        simp only [str_lt, if_pos rfl, List.cons_beq_cons, beq_self_eq_true,
          Bool.true_and]
        exact h
      · rcases lt_trichotomy x y with h | h | h
        · have : decide (x < y) = true := decide_eq_true h
          simp [str_lt, hxy, this]
        · exact absurd h hxy
        · have hyx : y ≠ x := fun hh => hxy hh.symm
          have : decide (y < x) = true := decide_eq_true h
          simp [str_lt, hxy, hyx, this]

theorem key_le_trans (k1 k2 k3 : Str × Nat × Nat)
    (h12 : key_le k1 k2 = true) (h23 : key_le k2 k3 = true) :
    key_le k1 k3 = true := by
  obtain ⟨s1, m1, l1⟩ := k1
  obtain ⟨s2, m2, l2⟩ := k2
  obtain ⟨s3, m3, l3⟩ := k3
  simp only [key_le, Bool.or_eq_true, Bool.and_eq_true, beq_iff_eq,
    decide_eq_true_iff] at h12 h23 ⊢
  rcases h12 with h12 | ⟨he12, hn12⟩ <;> rcases h23 with h23 | ⟨he23, hn23⟩
  · exact Or.inl (str_lt_trans _ _ _ h12 h23)
  · exact Or.inl (he23 ▸ h12)
  · exact Or.inl (he12 ▸ h23)
  · refine Or.inr ⟨he12.trans he23, ?_⟩
    omega

theorem key_le_total (k1 k2 : Str × Nat × Nat) :
    (key_le k1 k2 || key_le k2 k1) = true := by
  obtain ⟨s1, m1, l1⟩ := k1
  obtain ⟨s2, m2, l2⟩ := k2
  have h := str_lt_total s1 s2
  simp only [Bool.or_eq_true, beq_iff_eq] at h
  simp only [key_le, Bool.or_eq_true, Bool.and_eq_true, beq_iff_eq,
    decide_eq_true_iff]
  rcases h with (h | h) | h
  · exact Or.inl (Or.inl h)
  · subst h
    rcases Nat.lt_trichotomy m1 m2 with hm | hm | hm
    · exact Or.inl (Or.inr ⟨rfl, Or.inl hm⟩)
    · subst hm
      rcases Nat.le_total l1 l2 with hl | hl
      · exact Or.inl (Or.inr ⟨rfl, Or.inr ⟨rfl, hl⟩⟩)
      · exact Or.inr (Or.inr ⟨rfl, Or.inr ⟨rfl, hl⟩⟩)
    · exact Or.inr (Or.inr ⟨rfl, Or.inl hm⟩)
  · exact Or.inr (Or.inl h)

theorem lesson_le_trans (a b c : Str) (h1 : lesson_le a b = true)
    (h2 : lesson_le b c = true) : lesson_le a c = true :=
  key_le_trans _ _ _ h1 h2

theorem lesson_le_total (a b : Str) : (lesson_le a b || lesson_le b a) = true :=
  key_le_total _ _

theorem ordered_insert_perm (le : α → α → Bool) (x : α) (l : List α) :
    (ordered_insert le x l).Perm (x :: l) := by
  induction l with
  | nil => rfl
  | cons y ys ih =>
    rw [ordered_insert]
    by_cases h : le x y
    · rw [if_pos h]
    · rw [if_neg h]
      exact (ih.cons y).trans (List.Perm.swap x y ys)

theorem stable_sort_perm (le : α → α → Bool) (l : List α) :
    (stable_sort le l).Perm l := by
  induction l with
  | nil => rfl
  | cons x xs ih =>
    rw [stable_sort]
    exact (ordered_insert_perm le x (stable_sort le xs)).trans (ih.cons x)

theorem mem_ordered_insert (le : α → α → Bool) (x a : α) (l : List α) :
    a ∈ ordered_insert le x l ↔ a = x ∨ a ∈ l := by
  induction l with
  | nil => simp [ordered_insert]
  | cons y ys ih =>
    rw [ordered_insert]
    by_cases h : le x y
    · rw [if_pos h]
      simp [or_comm, or_assoc, or_left_comm]
    · rw [if_neg h]
      simp only [List.mem_cons, ih]
      tauto

theorem ordered_insert_sorted (le : α → α → Bool)
    (htrans : ∀ a b c, le a b = true → le b c = true → le a c = true)
    (htotal : ∀ a b, (le a b || le b a) = true)
    (x : α) (l : List α) (hl : l.Pairwise (fun a b => le a b = true)) :
    (ordered_insert le x l).Pairwise (fun a b => le a b = true) := by
  induction l with
  | nil => simp [ordered_insert]
  | cons y ys ih =>
    rw [ordered_insert]
    rw [List.pairwise_cons] at hl
    by_cases h : le x y
    · rw [if_pos h]
      rw [List.pairwise_cons]
      refine ⟨?_, List.pairwise_cons.mpr hl⟩
      intro b hb
      rcases List.mem_cons.mp hb with hb | hb
      · exact hb ▸ h
      · exact htrans x y b h (hl.1 b hb)
    · rw [if_neg h]
      rw [List.pairwise_cons]
      refine ⟨?_, ih hl.2⟩
      intro b hb
      rcases (mem_ordered_insert le x b ys).mp hb with hb | hb
      · rw [hb]
        have := htotal x y
        simp only [Bool.or_eq_true] at this
        rcases this with h1 | h1
        · exact absurd h1 h
        · exact h1
      · exact hl.1 b hb

theorem stable_sort_sorted (le : α → α → Bool)
    (htrans : ∀ a b c, le a b = true → le b c = true → le a c = true)
    (htotal : ∀ a b, (le a b || le b a) = true) (l : List α) :
    (stable_sort le l).Pairwise (fun a b => le a b = true) := by
  induction l with
  | nil => simp [stable_sort]
  | cons x xs ih =>
    rw [stable_sort]
    exact ordered_insert_sorted le htrans htotal x _ ih

end SortingTheorems

section LessonsOrderingTheorems

open Py CourseParser

theorem parse_snd (data : List PyVal) :
    (parse data).2 =
      if 45000 <
          (List.intercalate ['\n'] (sort_lessons (process_all data).2)).length
      then truncate_lessons (process_all data).2
      else List.intercalate ['\n'] (sort_lessons (process_all data).2) := rfl

theorem intercalate_pair (sep x y : Str) :
    List.intercalate sep [x, y] = x ++ (sep ++ y) := by
  simp [List.intercalate]

/-- The two lessons of the C7 counterexample: a 45020-character lesson with
module 1 / lesson 2 listed before a 19-character lesson with module 1 /
lesson 1.  Together they exceed the 45000-character ceiling. -/
def c7_lesson_a : Str :=
  String.toList "MTT Модуль 1 Урок 2 " ++ List.replicate 45000 'a'

/-- The short second lesson (sorts before `c7_lesson_a`). -/
def c7_lesson_b : Str := String.toList "MTT Модуль 1 Урок 1"

/-- The parse input of the C7 counterexample. -/
def c7_data : List PyVal := [PyVal.str c7_lesson_a, PyVal.str c7_lesson_b]

theorem c7_lesson_a_length : c7_lesson_a.length = 45020 := by
  unfold c7_lesson_a
  rw [List.length_append, List.length_replicate]
  decide

/-- C7 counterexample: on two lessons collected in the order (lesson 2,
lesson 1) whose joined length exceeds 45000, `parse` truncates the
*unsorted* join — `_truncate_lessons` receives the original `lessons_list`,
not the sorted one.  The sort demonstrably reorders the pair, position 18 of
the emitted text is the `2` of the first collected lesson, while the
claim-mandated output (the hard truncation of the sorted join) carries `1`
there; the emitted text differs from it.  So the sorted order does not hold
in the truncation branch. -/
theorem claim_C7_counterexample :
    45000 <
      (List.intercalate ['\n'] (sort_lessons (process_all c7_data).2)).length
    ∧ sort_lessons (process_all c7_data).2 ≠ (process_all c7_data).2
    ∧ (parse c7_data).2.get? 18 = some '2'
    ∧ (pySliceTo
          (List.intercalate ['\n'] (sort_lessons (process_all c7_data).2))
          45000 ++ truncated_marker).get? 18 = some '1'
    ∧ (parse c7_data).2 ≠
        pySliceTo
          (List.intercalate ['\n'] (sort_lessons (process_all c7_data).2))
          45000 ++ truncated_marker := by
  have h_collect : (process_all c7_data).2 = [c7_lesson_a, c7_lesson_b] := rfl
  have h_sort : sort_lessons (process_all c7_data).2
      = [c7_lesson_b, c7_lesson_a] := rfl
  have hthresh : 45000 <
      (List.intercalate ['\n'] (sort_lessons (process_all c7_data).2)).length := by
    rw [h_sort, intercalate_pair, List.length_append, List.length_append,
      c7_lesson_a_length]
    decide
  have hout : (parse c7_data).2 = truncate_lessons (process_all c7_data).2 := by
    rw [parse_snd, if_pos hthresh]
  have g_actual : (parse c7_data).2.get? 18 = some '2' := by
    rw [hout, h_collect, truncate_lessons,
      if_neg (by rw [List.length_cons, List.length_cons, List.length_nil]; decide)]
    decide
  have g_claimed : (pySliceTo
      (List.intercalate ['\n'] (sort_lessons (process_all c7_data).2))
      45000 ++ truncated_marker).get? 18 = some '1' := by
    rw [h_sort]
    decide
  refine ⟨hthresh, ?_, g_actual, g_claimed, ?_⟩
  · rw [h_sort, h_collect]
    decide
  · intro heq
    rw [heq, g_claimed] at g_actual
    exact absurd g_actual (by decide)

/-- C7 amended: `lessons_text` is the newline-join of the collected lessons
sorted stably by (family, module number with missing → 999, lesson number
with missing → 999, no family → `ZZZ` sorting last) — proved as: the sorted
list is a permutation of the collected lessons and is pairwise ordered by
the key comparison — but only in the branch whose joined length stays within
the 45000-character ceiling.  When the ceiling is exceeded the output is
`_truncate_lessons` applied to the lessons in their original collection
order, so the sorted ordering does not hold in the truncation branch. -/
theorem claim_C7_amended (data : List PyVal) :
    ((¬ 45000 <
        (List.intercalate ['\n'] (sort_lessons (process_all data).2)).length) →
      (parse data).2 = List.intercalate ['\n'] (sort_lessons (process_all data).2))
    ∧ (45000 <
        (List.intercalate ['\n'] (sort_lessons (process_all data).2)).length →
      (parse data).2 = truncate_lessons (process_all data).2)
    ∧ (sort_lessons (process_all data).2).Perm (process_all data).2
    ∧ (sort_lessons (process_all data).2).Pairwise
        (fun a b => lesson_le a b = true) := by
  refine ⟨?_, ?_, stable_sort_perm _ _,
    stable_sort_sorted _ lesson_le_trans lesson_le_total _⟩
  · intro h
    rw [parse_snd, if_neg h]
  · intro h
    rw [parse_snd, if_pos h]

/-- The small parse input of the C7 amended witness: two short lessons
collected out of order. -/
def c7_small_data : List PyVal :=
  [PyVal.str (String.toList "Урок 2"), PyVal.str (String.toList "Урок 1")]

/-- Witness for C7 amended: below the ceiling the output is the sorted join,
here visibly reordering the two lessons. -/
theorem claim_C7_amended_witness :
    (¬ 45000 <
      (List.intercalate ['\n']
        (sort_lessons (process_all c7_small_data).2)).length)
    ∧ (parse c7_small_data).2
        = List.intercalate ['\n'] (sort_lessons (process_all c7_small_data).2)
    ∧ (parse c7_small_data).2
        = String.toList "Урок 1" ++ ('\n' :: String.toList "Урок 2") :=
  ⟨by decide, (claim_C7_amended c7_small_data).1 (by decide), by decide⟩

end LessonsOrderingTheorems
